import Mathlib

/-!
Shallow embedding of the recipe CRUD service (`src/main.py`).

The service is a FastAPI application over a single SQLite table `recipes`
with columns (id, title, making_time, serves, ingredients, cost,
created_at, updated_at).  We model:

* the table state as a list of rows together with the SQLite
  `AUTOINCREMENT` sequence (the largest id ever issued), plus a ghost
  list recording every id the storage layer has ever issued (this is
  exactly the information SQLite keeps in `sqlite_sequence` for an
  `AUTOINCREMENT` table, made explicit so that "never reused" is
  statable);
* the JSON request bodies as association lists of a small JSON value
  type, and the pydantic validation of `RecipeCreate` (five declared
  fields: four `str`, one `int`; undeclared fields ignored) as a parser
  over such bodies;
* `datetime.datetime.now()` as an oracle clock value passed to each
  request, and `strftime('%Y-%m-%d %H:%M:%S')` as an explicit
  zero-padded formatter;
* each route handler as a pure function from (state, inputs) to
  (response, state).
-/

namespace RecipeApi

/-- A stored row of the `recipes` table.  All columns are `NOT NULL`,
so every field is total. -/
structure Recipe where
  id : Nat
  title : String
  making_time : String
  serves : String
  ingredients : String
  cost : Int
  created_at : String
  updated_at : String
deriving Repr, DecidableEq

/-- The pydantic `RecipeCreate` model: the five declared request fields
(`title`, `making_time`, `serves`, `ingredients` of type `str`; `cost`
of type `int`). -/
structure RecipeCreate where
  title : String
  making_time : String
  serves : String
  ingredients : String
  cost : Int
deriving Repr, DecidableEq

/-- Database state: the rows of the `recipes` table, the
`AUTOINCREMENT` sequence value (largest id ever issued, as recorded in
`sqlite_sequence`), and a ghost trace of every id ever issued by the
storage layer. -/
structure DB where
  rows : List Recipe
  seq : Nat
  issued : List Nat
deriving Repr, DecidableEq

/-- First seed row inserted by `init_db`. -/
def seedRow1 : Recipe :=
  { id := 1, title := "チキンカレー", making_time := "45分", serves := "4人",
    ingredients := "玉ねぎ,肉,スパイス", cost := 1000,
    created_at := "2016-01-10 12:10:12", updated_at := "2016-01-10 12:10:12" }

/-- Second seed row inserted by `init_db`. -/
def seedRow2 : Recipe :=
  { id := 2, title := "オムライス", making_time := "30分", serves := "2人",
    ingredients := "玉ねぎ,卵,スパイス,醤油", cost := 700,
    created_at := "2016-01-11 13:10:12", updated_at := "2016-01-11 13:10:12" }

/-- `init_db`: drops the table if it exists, recreates the schema and
inserts the two seed rows with explicit ids 1 and 2.  Inserting
explicit ids 1 and 2 into an `AUTOINCREMENT` table sets the
`sqlite_sequence` entry to 2.  The prior state is discarded entirely. -/
def init_db (_ : DB) : DB :=
  { rows := [seedRow1, seedRow2], seq := 2, issued := [1, 2] }

/-- A database state with no table contents, standing for the state
before the first `init_db` (or any prior state; `init_db` ignores it). -/
def emptyDB : DB := { rows := [], seq := 0, issued := [] }

/-- The state right after startup (`on_startup` calls `init_db`). -/
def seededDB : DB := init_db emptyDB

/-- `SELECT * FROM recipes WHERE id = ?` followed by `fetchone()`:
the first row with the given id, if any. -/
def get_by_id (db : DB) (recipe_id : Nat) : Option Recipe :=
  db.rows.find? (fun r => r.id = recipe_id)

/-! ## Responses

Every endpoint returns a JSON envelope; the constructors below record
the exact shapes produced by `src/main.py`, and `Response.status` the
HTTP status code each is sent with. -/

/-- The response envelopes the five handlers can produce. -/
inductive Response where
  | listOk (recipes : List Recipe)
  | itemOk (message : String) (recipe : List Recipe)
  | msgOk (message : String)
  | validationFailure (message : String) (detail : String)
  | notFound (detail : String)
deriving Repr, DecidableEq

/-- HTTP status code of each response shape: 200 for the success
envelopes, 400 for the `RequestValidationError` handler, 404 for
`HTTPException(status_code=404)`. -/
def Response.status : Response → Nat
  | .listOk _ => 200
  | .itemOk _ _ => 200
  | .msgOk _ => 200
  | .validationFailure _ _ => 400
  | .notFound _ => 404

/-! ## The clock -/

/-- A reading of the process-local clock (`datetime.datetime.now()`),
broken into civil fields. -/
structure Clock where
  year : Nat
  month : Nat
  day : Nat
  hour : Nat
  minute : Nat
  second : Nat
deriving Repr, DecidableEq

/-- Two zero-padded decimal digits (the behaviour of `strftime` field
directives such as `%m`, `%d`, `%H`, `%M`, `%S` for values below 100). -/
def pad2 (n : Nat) : List Char :=
  [Nat.digitChar (n / 10 % 10), Nat.digitChar (n % 10)]

/-- Four zero-padded decimal digits (`strftime`'s `%Y` for years below
10000). -/
def pad4 (n : Nat) : List Char :=
  [Nat.digitChar (n / 1000 % 10), Nat.digitChar (n / 100 % 10),
   Nat.digitChar (n / 10 % 10), Nat.digitChar (n % 10)]

/-- `get_current_time`: `datetime.datetime.now().strftime('%Y-%m-%d %H:%M:%S')`
applied to a clock reading. -/
def get_current_time (c : Clock) : String :=
  ⟨pad4 c.year ++ '-' :: pad2 c.month ++ '-' :: pad2 c.day ++
   ' ' :: pad2 c.hour ++ ':' :: pad2 c.minute ++ ':' :: pad2 c.second⟩

/-- Checks that a string has the exact shape `YYYY-MM-DD HH:MM:SS`:
nineteen characters, decimal digits in the numeric positions and the
fixed separators in between. -/
def isTsFormat (s : String) : Bool :=
  match s.data with
  | [y1, y2, y3, y4, h1, m1, m2, h2, d1, d2, sp, a1, a2, c1, b1, b2, c2, e1, e2] =>
    y1.isDigit && y2.isDigit && y3.isDigit && y4.isDigit && h1 = '-' &&
    m1.isDigit && m2.isDigit && h2 = '-' && d1.isDigit && d2.isDigit &&
    sp = ' ' && a1.isDigit && a2.isDigit && c1 = ':' && b1.isDigit &&
    b2.isDigit && c2 = ':' && e1.isDigit && e2.isDigit
  | _ => false

/-! ## The five route handlers -/

/-- `GET /recipes`: `SELECT * FROM recipes`, all rows under the
`recipes` key.  Never fails; an empty table yields an empty list. -/
def get_recipes (db : DB) : Response :=
  .listOk db.rows

/-- The row the `INSERT` statement stores: a storage-generated id (one
more than the largest id ever issued), the five payload fields, and
both timestamps set to the current time. -/
def newRecipe (db : DB) (recipe : RecipeCreate) (now : String) : Recipe :=
  { id := db.seq + 1, title := recipe.title, making_time := recipe.making_time,
    serves := recipe.serves, ingredients := recipe.ingredients,
    cost := recipe.cost, created_at := now, updated_at := now }

/-- `POST /recipes` after validation: inserts a new row with a
storage-generated id (`AUTOINCREMENT`: one more than the largest id
ever issued), both timestamps set to the current time, then re-reads
the row by `lastrowid` and returns it wrapped in a one-element list. -/
def create_recipe (db : DB) (recipe : RecipeCreate) (now : String) :
    Response × DB :=
  let db' : DB :=
    { rows := db.rows ++ [newRecipe db recipe now], seq := db.seq + 1,
      issued := db.issued ++ [db.seq + 1] }
  (.itemOk "Recipe successfully created!" (get_by_id db' (db.seq + 1)).toList, db')

/-- `GET /recipes/{id}`: fetch one row; 404 if absent, otherwise the
row wrapped in a one-element list. -/
def get_recipe_detail (db : DB) (recipe_id : Nat) : Response :=
  match get_by_id db recipe_id with
  | none => .notFound "Recipe not found"
  | some r => .itemOk "Recipe details by id" [r]

/-- The effect of the `UPDATE ... WHERE id=?` statement on one row:
rows matching the id get the five payload fields and `updated_at`
replaced; other rows are untouched. -/
def applyUpdate (recipe_update : RecipeCreate) (now : String) (recipe_id : Nat)
    (r : Recipe) : Recipe :=
  if r.id = recipe_id then
    { r with title := recipe_update.title,
             making_time := recipe_update.making_time,
             serves := recipe_update.serves,
             ingredients := recipe_update.ingredients,
             cost := recipe_update.cost,
             updated_at := now }
  else r

/-- `PATCH /recipes/{id}` after validation: checks existence first
(404 and no write if absent); otherwise `UPDATE ... SET` replaces the
five payload fields and `updated_at` on every row matching the id,
then re-reads the row and returns it wrapped in a one-element list. -/
def update_recipe (db : DB) (recipe_id : Nat) (recipe_update : RecipeCreate)
    (now : String) : Response × DB :=
  match get_by_id db recipe_id with
  | none => (.notFound "Recipe not found", db)
  | some _ =>
    let db' : DB :=
      { db with rows := db.rows.map (applyUpdate recipe_update now recipe_id) }
    (.itemOk "Recipe successfully updated!" (get_by_id db' recipe_id).toList, db')

/-- `DELETE /recipes/{id}`: checks existence first (404 and no write if
absent); otherwise `DELETE FROM recipes WHERE id = ?` and a
message-only envelope. -/
def delete_recipe (db : DB) (recipe_id : Nat) : Response × DB :=
  match get_by_id db recipe_id with
  | none => (.notFound "Recipe not found", db)
  | some _ =>
    (.msgOk "Recipe successfully removed!",
     { db with rows := db.rows.filter (fun r => r.id ≠ recipe_id) })

/-! ## Request bodies and validation

FastAPI parses the JSON request body and validates it against the
pydantic model `RecipeCreate` before the handler runs; a
`RequestValidationError` is turned into a 400 response by the
registered exception handler (message `Recipe creation failed!`,
detail the validator's diagnostic text). -/

/-- JSON values as far as this service's validation distinguishes
them. -/
inductive Json where
  | str (s : String)
  | int (n : Int)
  | bool (b : Bool)
  | null
deriving Repr, DecidableEq

/-- A JSON object body: an association list from keys to values. -/
abbrev Body := List (String × Json)

/-- Look up a key in a request body. -/
def getField (body : Body) (k : String) : Option Json :=
  (body.find? (fun kv => kv.1 = k)).map (fun kv => kv.2)

/-- The five field names declared on `RecipeCreate`; any other key in
the body is ignored by validation. -/
def declaredFields : List String :=
  ["title", "making_time", "serves", "ingredients", "cost"]

/-- Validate one required `str` field: present and string-typed. -/
def requireStr (body : Body) (k : String) : Except String String :=
  match getField body k with
  | none => .error (k ++ ": field required")
  | some (.str s) => .ok s
  | some _ => .error (k ++ ": str type expected")

/-- Validate the required `int` field: present and integer-typed. -/
def requireInt (body : Body) (k : String) : Except String Int :=
  match getField body k with
  | none => .error (k ++ ": field required")
  | some (.int n) => .ok n
  | some _ => .error (k ++ ": integer type expected")

/-- Validation of a request body against `RecipeCreate`: each declared
field must be present with its declared type; undeclared fields are
ignored.  On failure, the diagnostic of the offending field. -/
def parseRecipeCreate (body : Body) : Except String RecipeCreate := do
  let title ← requireStr body "title"
  let making_time ← requireStr body "making_time"
  let serves ← requireStr body "serves"
  let ingredients ← requireStr body "ingredients"
  let cost ← requireInt body "cost"
  return { title := title, making_time := making_time, serves := serves,
           ingredients := ingredients, cost := cost }

/-- The `POST /recipes` route: body validation, then `create_recipe`;
a validation failure is answered with the 400 envelope and no write. -/
def post_recipes (db : DB) (body : Body) (now : String) : Response × DB :=
  match parseRecipeCreate body with
  | .error e => (.validationFailure "Recipe creation failed!" e, db)
  | .ok p => create_recipe db p now

/-- The `PATCH /recipes/{id}` route: body validation, then
`update_recipe`; a validation failure is answered with the 400
envelope and no write. -/
def patch_recipes (db : DB) (recipe_id : Nat) (body : Body) (now : String) :
    Response × DB :=
  match parseRecipeCreate body with
  | .error e => (.validationFailure "Recipe creation failed!" e, db)
  | .ok p => update_recipe db recipe_id p now

/-! ## Request traces

A reachable state is one produced from the seeded startup state by a
sequence of mutating requests.  Each mutating request carries the
clock string the process would have produced for it. -/

/-- One mutating HTTP request. -/
inductive Op where
  | create (body : Body) (now : String)
  | update (recipe_id : Nat) (body : Body) (now : String)
  | delete (recipe_id : Nat)
deriving Repr

/-- The clock reading a request uses, if it uses one. -/
def Op.time? : Op → Option String
  | .create _ now => some now
  | .update _ _ now => some now
  | .delete _ => none

/-- State after serving one request. -/
def step (db : DB) : Op → DB
  | .create body now => (post_recipes db body now).2
  | .update rid body now => (patch_recipes db rid body now).2
  | .delete rid => (delete_recipe db rid).2

/-- State after serving a sequence of requests. -/
def run (db : DB) (ops : List Op) : DB := ops.foldl step db

/-- Timestamp order: the `YYYY-MM-DD HH:MM:SS` strings compare
chronologically exactly when they compare lexicographically. -/
def tsLe (a b : String) : Prop := a.data ≤ b.data

instance (a b : String) : Decidable (tsLe a b) :=
  inferInstanceAs (Decidable (a.data ≤ b.data))

/-- The wall clock only moves forward: starting from lower bound `t`,
each request's clock reading is at least the previous one. -/
def clockOk : String → List Op → Bool
  | _, [] => true
  | t, op :: ops =>
    match op.time? with
    | none => clockOk t ops
    | some s => decide (tsLe t s) && clockOk s ops

/-- The larger seed timestamp: lower bound for the clock after startup. -/
def seedTime : String := "2016-01-11 13:10:12"

/-- The clock bound after serving one request starting from bound `t`. -/
def nextT (t : String) (op : Op) : String := (Op.time? op).getD t

/-- The clock bound after serving a request sequence starting from `t`. -/
def finalT : String → List Op → String
  | t, [] => t
  | t, op :: ops => finalT (nextT t op) ops

/-! ## Invariants -/

/-- Every stored id is bounded by the sequence value (true of any real
SQLite `AUTOINCREMENT` table and preserved by every request). -/
def idsBounded (db : DB) : Prop := ∀ r ∈ db.rows, r.id ≤ db.seq

/-- Every id ever issued is bounded by the sequence value. -/
def issuedBounded (db : DB) : Prop := ∀ i ∈ db.issued, i ≤ db.seq

/-- Stored ids are pairwise distinct. -/
def idsNodup (db : DB) : Prop := (db.rows.map Recipe.id).Nodup

/-- The clock-independent storage invariant. -/
def IdInv (db : DB) : Prop := idsNodup db ∧ idsBounded db ∧ issuedBounded db

/-- The clock-dependent invariant relative to an upper bound `t` on
all clock readings seen so far: timestamps are ordered within each row
and bounded by `t`. -/
def TimeInv (t : String) (db : DB) : Prop :=
  ∀ r ∈ db.rows, tsLe r.created_at r.updated_at ∧ tsLe r.updated_at t

/-! ## Helper lemmas -/

theorem tsLe_refl (a : String) : tsLe a a := le_refl a.data

theorem tsLe_trans {a b c : String} (h1 : tsLe a b) (h2 : tsLe b c) :
    tsLe a c := le_trans h1 h2

theorem applyUpdate_id (u : RecipeCreate) (now : String) (rid : Nat)
    (r : Recipe) : (applyUpdate u now rid r).id = r.id := by
  unfold applyUpdate; split <;> rfl

theorem applyUpdate_created_at (u : RecipeCreate) (now : String) (rid : Nat)
    (r : Recipe) : (applyUpdate u now rid r).created_at = r.created_at := by
  unfold applyUpdate; split <;> rfl

theorem get_by_id_some_id {db : DB} {rid : Nat} {r : Recipe}
    (h : get_by_id db rid = some r) : r.id = rid := by
  have := List.find?_some h
  simpa using this

theorem get_by_id_mem {db : DB} {rid : Nat} {r : Recipe}
    (h : get_by_id db rid = some r) : r ∈ db.rows :=
  List.mem_of_find?_eq_some h

theorem get_by_id_eq_none {db : DB} {rid : Nat}
    (h : ∀ r ∈ db.rows, r.id ≠ rid) : get_by_id db rid = none := by
  unfold get_by_id
  rw [List.find?_eq_none]
  intro r hr
  simpa using h r hr

theorem eq_of_mem_of_same_id {db : DB} (hnd : idsNodup db) {r r' : Recipe}
    (hr : r ∈ db.rows) (hr' : r' ∈ db.rows) (hid : r'.id = r.id) : r' = r :=
  List.inj_on_of_nodup_map hnd hr' hr hid

/-- Re-reading by `lastrowid` after the insert finds exactly the
inserted row, because every pre-existing id is at most `db.seq`. -/
theorem create_reread {db : DB} (hb : idsBounded db)
    (p : RecipeCreate) (now : String) :
    get_by_id (create_recipe db p now).2 (db.seq + 1) =
      some (newRecipe db p now) := by
  unfold create_recipe get_by_id
  simp only [List.find?_append]
  have h1 : db.rows.find? (fun r => r.id = db.seq + 1) = none := by
    rw [List.find?_eq_none]
    intro r hr
    have := hb r hr
    simp only [decide_eq_true_eq]
    omega
  simp [h1, newRecipe]

theorem get_by_id_map_applyUpdate (db : DB) (u : RecipeCreate) (now : String)
    (rid j : Nat) :
    (List.find? (fun r => r.id = j) (db.rows.map (applyUpdate u now rid))) =
      Option.map (applyUpdate u now rid) (db.rows.find? (fun r => r.id = j)) := by
  rw [List.find?_map]
  have hp : ((fun r : Recipe => decide (r.id = j)) ∘ applyUpdate u now rid) =
      (fun r : Recipe => decide (r.id = j)) := by
    funext r
    simp [Function.comp, applyUpdate_id]
  rw [hp]

theorem get_by_id_filter_ne (db : DB) (rid j : Nat) (hne : j ≠ rid) :
    (List.find? (fun r => r.id = j) (db.rows.filter (fun r => r.id ≠ rid))) =
      db.rows.find? (fun r => r.id = j) := by
  rw [List.find?_filter]
  congr 1
  funext r
  by_cases h : r.id = j
  · subst h
    simp [hne]
  · simp [h]

theorem get_by_id_filter_self (db : DB) (rid : Nat) :
    (List.find? (fun r => r.id = rid) (db.rows.filter (fun r => r.id ≠ rid))) =
      none := by
  rw [List.find?_eq_none]
  intro r hr
  have := List.of_mem_filter hr
  simpa using this

theorem create_recipe_snd (db : DB) (p : RecipeCreate) (now : String) :
    (create_recipe db p now).2 =
      { rows := db.rows ++ [newRecipe db p now], seq := db.seq + 1,
        issued := db.issued ++ [db.seq + 1] } := rfl

theorem update_recipe_found {db : DB} {rid : Nat} {r : Recipe}
    (u : RecipeCreate) (now : String) (h : get_by_id db rid = some r) :
    update_recipe db rid u now =
      (let db' : DB := { db with rows := db.rows.map (applyUpdate u now rid) }
       (.itemOk "Recipe successfully updated!" (get_by_id db' rid).toList, db')) := by
  unfold update_recipe
  rw [h]

theorem update_recipe_not_found {db : DB} {rid : Nat}
    (u : RecipeCreate) (now : String) (h : get_by_id db rid = none) :
    update_recipe db rid u now = (.notFound "Recipe not found", db) := by
  unfold update_recipe
  rw [h]

theorem delete_recipe_found {db : DB} {rid : Nat} {r : Recipe}
    (h : get_by_id db rid = some r) :
    delete_recipe db rid =
      (.msgOk "Recipe successfully removed!",
       { db with rows := db.rows.filter (fun r => r.id ≠ rid) }) := by
  unfold delete_recipe
  rw [h]

theorem delete_recipe_not_found {db : DB} {rid : Nat}
    (h : get_by_id db rid = none) :
    delete_recipe db rid = (.notFound "Recipe not found", db) := by
  unfold delete_recipe
  rw [h]

theorem post_recipes_error {db : DB} {body : Body} {now e : String}
    (h : parseRecipeCreate body = .error e) :
    post_recipes db body now =
      (.validationFailure "Recipe creation failed!" e, db) := by
  unfold post_recipes
  rw [h]

theorem post_recipes_ok {db : DB} {body : Body} {now : String}
    {p : RecipeCreate} (h : parseRecipeCreate body = .ok p) :
    post_recipes db body now = create_recipe db p now := by
  unfold post_recipes
  rw [h]

theorem patch_recipes_error {db : DB} {rid : Nat} {body : Body} {now e : String}
    (h : parseRecipeCreate body = .error e) :
    patch_recipes db rid body now =
      (.validationFailure "Recipe creation failed!" e, db) := by
  unfold patch_recipes
  rw [h]

theorem patch_recipes_ok {db : DB} {rid : Nat} {body : Body} {now : String}
    {p : RecipeCreate} (h : parseRecipeCreate body = .ok p) :
    patch_recipes db rid body now = update_recipe db rid p now := by
  unfold patch_recipes
  rw [h]

theorem run_nil (db : DB) : run db [] = db := rfl

theorem run_cons (db : DB) (op : Op) (ops : List Op) :
    run db (op :: ops) = run (step db op) ops := rfl

/-! ## Preservation of the storage invariant -/

theorem IdInv_seeded : IdInv seededDB := by
  unfold IdInv idsNodup idsBounded issuedBounded
  refine ⟨by decide, by decide, by decide⟩

theorem IdInv_create (db : DB) (p : RecipeCreate) (now : String)
    (h : IdInv db) : IdInv (create_recipe db p now).2 := by
  obtain ⟨hnd, hb, hib⟩ := h
  rw [create_recipe_snd]
  refine ⟨?_, ?_, ?_⟩
  · show ((db.rows ++ [newRecipe db p now]).map Recipe.id).Nodup
    rw [List.map_append, List.nodup_append]
    refine ⟨hnd, by simp, ?_⟩
    intro a ha
    simp only [List.mem_map] at ha
    obtain ⟨r, hr, rfl⟩ := ha
    have := hb r hr
    simp only [List.map_cons, List.map_nil, List.mem_cons, List.not_mem_nil,
      newRecipe, or_false]
    omega
  · intro r hr
    rw [List.mem_append] at hr
    rcases hr with hr | hr
    · have := hb r hr
      show r.id ≤ db.seq + 1
      omega
    · simp only [List.mem_singleton] at hr
      subst hr
      show (newRecipe db p now).id ≤ db.seq + 1
      simp [newRecipe]
  · intro i hi
    rw [List.mem_append] at hi
    rcases hi with hi | hi
    · have := hib i hi
      show i ≤ db.seq + 1
      omega
    · simp only [List.mem_singleton] at hi
      show i ≤ db.seq + 1
      omega

theorem IdInv_update (db : DB) (rid : Nat) (u : RecipeCreate) (now : String)
    (h : IdInv db) : IdInv (update_recipe db rid u now).2 := by
  obtain ⟨hnd, hb, hib⟩ := h
  cases hg : get_by_id db rid with
  | none =>
    rw [update_recipe_not_found u now hg]
    exact ⟨hnd, hb, hib⟩
  | some r =>
    rw [update_recipe_found u now hg]
    have hids : (db.rows.map (applyUpdate u now rid)).map Recipe.id =
        db.rows.map Recipe.id := by
      rw [List.map_map]
      congr 1
      funext s
      exact applyUpdate_id u now rid s
    refine ⟨?_, ?_, hib⟩
    · show ((db.rows.map (applyUpdate u now rid)).map Recipe.id).Nodup
      rw [hids]
      exact hnd
    · intro s hs
      simp only [List.mem_map] at hs
      obtain ⟨s₀, hs₀, rfl⟩ := hs
      rw [applyUpdate_id]
      exact hb s₀ hs₀

theorem IdInv_delete (db : DB) (rid : Nat) (h : IdInv db) :
    IdInv (delete_recipe db rid).2 := by
  obtain ⟨hnd, hb, hib⟩ := h
  cases hg : get_by_id db rid with
  | none =>
    rw [delete_recipe_not_found hg]
    exact ⟨hnd, hb, hib⟩
  | some r =>
    rw [delete_recipe_found hg]
    refine ⟨?_, ?_, hib⟩
    · show ((db.rows.filter (fun s => s.id ≠ rid)).map Recipe.id).Nodup
      exact ((List.filter_sublist db.rows).map Recipe.id).nodup hnd
    · intro s hs
      exact hb s (List.mem_of_mem_filter hs)

theorem IdInv_step (db : DB) (op : Op) (h : IdInv db) : IdInv (step db op) := by
  cases op with
  | create body now =>
    show IdInv (post_recipes db body now).2
    cases hp : parseRecipeCreate body with
    | error e => rw [post_recipes_error hp]; exact h
    | ok p => rw [post_recipes_ok hp]; exact IdInv_create db p now h
  | update rid body now =>
    show IdInv (patch_recipes db rid body now).2
    cases hp : parseRecipeCreate body with
    | error e => rw [patch_recipes_error hp]; exact h
    | ok p => rw [patch_recipes_ok hp]; exact IdInv_update db rid p now h
  | delete rid =>
    exact IdInv_delete db rid h

theorem IdInv_run (ops : List Op) : ∀ db : DB, IdInv db → IdInv (run db ops) := by
  induction ops with
  | nil => intro db h; exact h
  | cons op ops ih =>
    intro db h
    rw [run_cons]
    exact ih _ (IdInv_step db op h)

/-! ## Preservation of the clock invariant -/

theorem TimeInv_mono {t t' : String} (h : tsLe t t') {db : DB}
    (hT : TimeInv t db) : TimeInv t' db :=
  fun r hr => ⟨(hT r hr).1, tsLe_trans (hT r hr).2 h⟩

theorem TimeInv_seeded : TimeInv seedTime seededDB := by
  unfold TimeInv
  decide

theorem TimeInv_create {t : String} {db : DB} (hT : TimeInv t db)
    (p : RecipeCreate) {now : String} (hc : tsLe t now) :
    TimeInv now (create_recipe db p now).2 := by
  rw [create_recipe_snd]
  intro r hr
  rw [List.mem_append] at hr
  rcases hr with hr | hr
  · exact ⟨(hT r hr).1, tsLe_trans (hT r hr).2 hc⟩
  · rw [List.mem_singleton] at hr
    subst hr
    exact ⟨tsLe_refl now, tsLe_refl now⟩

theorem TimeInv_update {t : String} {db : DB} (rid : Nat) (u : RecipeCreate)
    {now : String} (hT : TimeInv t db) (hc : tsLe t now) :
    TimeInv now (update_recipe db rid u now).2 := by
  cases hg : get_by_id db rid with
  | none =>
    rw [update_recipe_not_found u now hg]
    exact TimeInv_mono hc hT
  | some r =>
    rw [update_recipe_found u now hg]
    intro s hs
    simp only [List.mem_map] at hs
    obtain ⟨s₀, hs₀, rfl⟩ := hs
    unfold applyUpdate
    split
    · exact ⟨tsLe_trans (hT s₀ hs₀).1 (tsLe_trans (hT s₀ hs₀).2 hc),
        tsLe_refl now⟩
    · exact ⟨(hT s₀ hs₀).1, tsLe_trans (hT s₀ hs₀).2 hc⟩

theorem TimeInv_delete {t : String} {db : DB} (rid : Nat) (hT : TimeInv t db) :
    TimeInv t (delete_recipe db rid).2 := by
  cases hg : get_by_id db rid with
  | none =>
    rw [delete_recipe_not_found hg]
    exact hT
  | some r =>
    rw [delete_recipe_found hg]
    intro s hs
    exact hT s (List.mem_of_mem_filter hs)

theorem TimeInv_step {t : String} {db : DB} (hT : TimeInv t db) (op : Op)
    (hc : tsLe t (nextT t op)) : TimeInv (nextT t op) (step db op) := by
  cases op with
  | create body now =>
    have hn : nextT t (Op.create body now) = now := rfl
    rw [hn] at hc ⊢
    show TimeInv now (post_recipes db body now).2
    cases hp : parseRecipeCreate body with
    | error e =>
      rw [post_recipes_error hp]
      exact TimeInv_mono hc hT
    | ok p =>
      rw [post_recipes_ok hp]
      exact TimeInv_create hT p hc
  | update rid body now =>
    have hn : nextT t (Op.update rid body now) = now := rfl
    rw [hn] at hc ⊢
    show TimeInv now (patch_recipes db rid body now).2
    cases hp : parseRecipeCreate body with
    | error e =>
      rw [patch_recipes_error hp]
      exact TimeInv_mono hc hT
    | ok p =>
      rw [patch_recipes_ok hp]
      exact TimeInv_update rid p hT hc
  | delete rid =>
    have hn : nextT t (Op.delete rid) = t := rfl
    rw [hn]
    exact TimeInv_delete rid hT

theorem TimeInv_run (ops : List Op) : ∀ (t : String) (db : DB),
    clockOk t ops = true → TimeInv t db →
    TimeInv (finalT t ops) (run db ops) := by
  induction ops with
  | nil =>
    intro t db _ h
    exact h
  | cons op ops ih =>
    intro t db hck hT
    rw [run_cons]
    cases op with
    | create body now =>
      have hck' : tsLe t now ∧ clockOk now ops = true := by
        simpa [clockOk, Op.time?] using hck
      exact ih now _ hck'.2 (TimeInv_step hT (.create body now) hck'.1)
    | update rid body now =>
      have hck' : tsLe t now ∧ clockOk now ops = true := by
        simpa [clockOk, Op.time?] using hck
      exact ih now _ hck'.2 (TimeInv_step hT (.update rid body now) hck'.1)
    | delete rid =>
      have hck' : clockOk t ops = true := by
        simpa [clockOk, Op.time?] using hck
      exact ih t _ hck' (TimeInv_step hT (.delete rid) (tsLe_refl t))

/-- A row present before and after a request, identified by its id,
keeps its `created_at` across the request. -/
theorem created_at_stable {db : DB} (hI : IdInv db) (op : Op) {r r' : Recipe}
    (hr : r ∈ db.rows) (hr' : r' ∈ (step db op).rows) (hid : r'.id = r.id) :
    r'.created_at = r.created_at := by
  obtain ⟨hnd, hb, hib⟩ := hI
  cases op with
  | create body now =>
    cases hp : parseRecipeCreate body with
    | error e =>
      have hst : step db (.create body now) = db := by
        show (post_recipes db body now).2 = db
        rw [post_recipes_error hp]
      rw [hst] at hr'
      rw [eq_of_mem_of_same_id hnd hr hr' hid]
    | ok p =>
      have hst : step db (.create body now) = (create_recipe db p now).2 := by
        show (post_recipes db body now).2 = _
        rw [post_recipes_ok hp]
      rw [hst, create_recipe_snd] at hr'
      rw [List.mem_append] at hr'
      rcases hr' with hr' | hr'
      · rw [eq_of_mem_of_same_id hnd hr hr' hid]
      · rw [List.mem_singleton] at hr'
        subst hr'
        exfalso
        have h1 := hb r hr
        have h2 : (newRecipe db p now).id = db.seq + 1 := rfl
        rw [h2] at hid
        omega
  | update rid body now =>
    cases hp : parseRecipeCreate body with
    | error e =>
      have hst : step db (.update rid body now) = db := by
        show (patch_recipes db rid body now).2 = db
        rw [patch_recipes_error hp]
      rw [hst] at hr'
      rw [eq_of_mem_of_same_id hnd hr hr' hid]
    | ok p =>
      have hst : step db (.update rid body now) = (update_recipe db rid p now).2 := by
        show (patch_recipes db rid body now).2 = _
        rw [patch_recipes_ok hp]
      rw [hst] at hr'
      cases hg : get_by_id db rid with
      | none =>
        rw [update_recipe_not_found p now hg] at hr'
        rw [eq_of_mem_of_same_id hnd hr hr' hid]
      | some s =>
        rw [update_recipe_found p now hg] at hr'
        simp only [List.mem_map] at hr'
        obtain ⟨s₀, hs₀, rfl⟩ := hr'
        rw [applyUpdate_id] at hid
        rw [applyUpdate_created_at]
        rw [eq_of_mem_of_same_id hnd hr hs₀ hid]
  | delete rid =>
    cases hg : get_by_id db rid with
    | none =>
      have hst : step db (.delete rid) = db := by
        show (delete_recipe db rid).2 = db
        rw [delete_recipe_not_found hg]
      rw [hst] at hr'
      rw [eq_of_mem_of_same_id hnd hr hr' hid]
    | some s =>
      have hst : step db (.delete rid) =
          { db with rows := db.rows.filter (fun r => r.id ≠ rid) } := by
        show (delete_recipe db rid).2 = _
        rw [delete_recipe_found hg]
      rw [hst] at hr'
      have hmem := List.mem_of_mem_filter hr'
      rw [eq_of_mem_of_same_id hnd hr hmem hid]

theorem create_recipe_fst (db : DB) (p : RecipeCreate) (now : String) :
    (create_recipe db p now).1 =
      .itemOk "Recipe successfully created!"
        (get_by_id (create_recipe db p now).2 (db.seq + 1)).toList := rfl

/-- With pairwise-distinct ids, deleting by an id that is present
removes exactly one row. -/
theorem filter_ne_length {rows : List Recipe} {rid : Nat} {r : Recipe}
    (hnd : (rows.map Recipe.id).Nodup)
    (hfind : rows.find? (fun s => s.id = rid) = some r) :
    (rows.filter (fun s => s.id ≠ rid)).length + 1 = rows.length := by
  induction rows with
  | nil => simp at hfind
  | cons a l ih =>
    rw [List.map_cons, List.nodup_cons] at hnd
    by_cases ha : a.id = rid
    · simp [List.filter_cons, ha]
      intro s hs hsr
      exact hnd.1 (List.mem_map.mpr ⟨s, hs, by rw [hsr, ha]⟩)
    · rw [List.find?_cons] at hfind
      have hfind' : l.find? (fun s => s.id = rid) = some r := by
        simpa [ha] using hfind
      have hrec := ih hnd.2 hfind'
      simp only [ne_eq, decide_not] at hrec
      simp [List.filter_cons, ha]
      omega

/-- Validation only reads the five declared fields: bodies that agree
on them validate identically. -/
theorem parseRecipeCreate_congr {b1 b2 : Body}
    (h : ∀ k ∈ declaredFields, getField b1 k = getField b2 k) :
    parseRecipeCreate b1 = parseRecipeCreate b2 := by
  unfold parseRecipeCreate requireStr requireInt
  rw [h "title" (by simp [declaredFields]),
    h "making_time" (by simp [declaredFields]),
    h "serves" (by simp [declaredFields]),
    h "ingredients" (by simp [declaredFields]),
    h "cost" (by simp [declaredFields])]

/-- Keys outside the declared five are invisible to `getField` on the
declared five. -/
theorem getField_append_extras {extras : Body}
    (hex : ∀ kv ∈ extras, kv.1 ∉ declaredFields) (body : Body)
    {k : String} (hk : k ∈ declaredFields) :
    getField (body ++ extras) k = getField body k := by
  unfold getField
  rw [List.find?_append]
  have hnone : extras.find? (fun kv => kv.1 = k) = none := by
    rw [List.find?_eq_none]
    intro kv hkv
    simp only [decide_eq_true_eq]
    intro he
    exact hex kv hkv (he ▸ hk)
  rw [hnone]
  cases body.find? (fun kv => kv.1 = k) <;> rfl

theorem digitChar_isDigit : ∀ n, n < 10 → (Nat.digitChar n).isDigit = true := by
  decide

/-- The output of `strftime('%Y-%m-%d %H:%M:%S')` always has the shape
`YYYY-MM-DD HH:MM:SS`. -/
theorem isTsFormat_current (c : Clock) :
    isTsFormat (get_current_time c) = true := by
  have hd : ∀ n : Nat, (Nat.digitChar (n % 10)).isDigit = true := fun n =>
    digitChar_isDigit _ (Nat.mod_lt _ (by norm_num))
  unfold isTsFormat get_current_time pad4 pad2
  simp [hd]

/-! ## Claim theorems -/

/-- C1: Immediately after the startup initialization (`init_db`) runs,
listing all recipes returns exactly two rows: id 1 with the fixed
curry seed values and id 2 with the fixed omurice seed values, both
with `created_at = updated_at` at the fixed historical timestamps,
regardless of any state that existed before startup. -/
theorem C1_seed_invariant (d : DB) :
    get_recipes (init_db d) =
      .listOk
        [{ id := 1, title := "チキンカレー", making_time := "45分",
           serves := "4人", ingredients := "玉ねぎ,肉,スパイス", cost := 1000,
           created_at := "2016-01-10 12:10:12",
           updated_at := "2016-01-10 12:10:12" },
         { id := 2, title := "オムライス", making_time := "30分",
           serves := "2人", ingredients := "玉ねぎ,卵,スパイス,醤油", cost := 700,
           created_at := "2016-01-11 13:10:12",
           updated_at := "2016-01-11 13:10:12" }] := rfl

/-- C4: For an id not present in storage, PATCH and DELETE each return
the 404 not-found failure and leave the whole storage state unchanged:
the existence check precedes any mutation, so a failed update or
delete performs no write at all. -/
theorem C4_not_found_no_write (db : DB) (rid : Nat) (u : RecipeCreate)
    (now : String) (h : get_by_id db rid = none) :
    update_recipe db rid u now = (.notFound "Recipe not found", db)
    ∧ delete_recipe db rid = (.notFound "Recipe not found", db)
    ∧ (Response.notFound "Recipe not found").status = 404 :=
  ⟨update_recipe_not_found u now h, delete_recipe_not_found h, rfl⟩

/-- Witness for C4: id 999 is absent from the seeded database and a
PATCH on it returns 404 with the state unchanged. -/
theorem C4_not_found_no_write_witness :
    get_by_id seededDB 999 = none
    ∧ update_recipe seededDB 999
        { title := "t", making_time := "m", serves := "s",
          ingredients := "i", cost := 0 } "2020-01-01 00:00:00" =
        (.notFound "Recipe not found", seededDB) :=
  ⟨rfl,
   (C4_not_found_no_write seededDB 999
      { title := "t", making_time := "m", serves := "s",
        ingredients := "i", cost := 0 } "2020-01-01 00:00:00" rfl).1⟩

/-- C6: A request body missing a required field or carrying a wrongly
typed field is rejected by validation: the route answers 400 with the
envelope `message = "Recipe creation failed!"` and `detail` the
validator diagnostic, and storage is left completely unchanged (in
particular the row count does not increase). -/
theorem C6_validation_rejection (db : DB) (body : Body) (now e : String)
    (h : parseRecipeCreate body = .error e) :
    post_recipes db body now =
      (.validationFailure "Recipe creation failed!" e, db)
    ∧ (Response.validationFailure "Recipe creation failed!" e).status = 400
    ∧ (post_recipes db body now).2.rows.length = db.rows.length := by
  refine ⟨post_recipes_error h, rfl, ?_⟩
  rw [post_recipes_error h]

/-- Witness for C6: `cost` supplied as the string `"5"` is rejected
with the 400 envelope and the seeded storage is unchanged. -/
theorem C6_validation_rejection_witness :
    parseRecipeCreate
        [("title", .str "T"), ("making_time", .str "10 min"),
         ("serves", .str "2"), ("ingredients", .str "a,b"),
         ("cost", .str "5")] = .error "cost: integer type expected"
    ∧ post_recipes seededDB
        [("title", .str "T"), ("making_time", .str "10 min"),
         ("serves", .str "2"), ("ingredients", .str "a,b"),
         ("cost", .str "5")] "2020-01-01 00:00:00" =
        (.validationFailure "Recipe creation failed!"
          "cost: integer type expected", seededDB) :=
  ⟨rfl,
   (C6_validation_rejection seededDB
      [("title", .str "T"), ("making_time", .str "10 min"),
       ("serves", .str "2"), ("ingredients", .str "a,b"),
       ("cost", .str "5")] "2020-01-01 00:00:00"
      "cost: integer type expected" rfl).1⟩

/-- C7: Id generation is monotonic and ids are never reused: after any
request sequence from startup, an insert stores a row whose id is
strictly greater than every id the storage layer ever issued before
(ids of deleted rows included), and records it as issued. -/
theorem C7_id_monotonic (ops : List Op) (p : RecipeCreate) (now : String) :
    (create_recipe (run seededDB ops) p now).2.rows =
        (run seededDB ops).rows ++ [newRecipe (run seededDB ops) p now]
    ∧ (newRecipe (run seededDB ops) p now).id = (run seededDB ops).seq + 1
    ∧ (∀ i ∈ (run seededDB ops).issued,
        i < (newRecipe (run seededDB ops) p now).id)
    ∧ (newRecipe (run seededDB ops) p now).id ∉ (run seededDB ops).issued
    ∧ (create_recipe (run seededDB ops) p now).2.issued =
        (run seededDB ops).issued ++ [(newRecipe (run seededDB ops) p now).id] := by
  obtain ⟨hnd, hb, hib⟩ := IdInv_run ops seededDB IdInv_seeded
  refine ⟨rfl, rfl, ?_, ?_, rfl⟩
  · intro i hi
    have := hib i hi
    show i < (run seededDB ops).seq + 1
    omega
  · intro hmem
    have := hib _ hmem
    have hlt : (run seededDB ops).seq + 1 ≤ (run seededDB ops).seq := this
    omega

/-- Witness for C7 on the empty request trace: the id issued by the
next insert is not among the already issued ids. -/
theorem C7_id_monotonic_witness :
    (newRecipe (run seededDB [])
        { title := "T", making_time := "10 min", serves := "2",
          ingredients := "a,b", cost := 5 } "2020-01-01 00:00:00").id ∉
      (run seededDB []).issued :=
  (C7_id_monotonic []
    { title := "T", making_time := "10 min", serves := "2",
      ingredients := "a,b", cost := 5 } "2020-01-01 00:00:00").2.2.2.1

/-- C9: Every successful single-item response (create, get by id,
update) wraps the returned recipe in a one-element sequence under the
`recipe` key, while the list endpoint returns all rows under the
`recipes` key, an empty row list being a valid success. -/
theorem C9_response_shape (ops : List Op) :
    (∀ d : DB, get_recipes d = .listOk d.rows)
    ∧ (∀ p : RecipeCreate, ∀ now : String,
        (create_recipe (run seededDB ops) p now).1 =
          .itemOk "Recipe successfully created!"
            [newRecipe (run seededDB ops) p now])
    ∧ (∀ rid : Nat, ∀ r : Recipe, get_by_id (run seededDB ops) rid = some r →
        get_recipe_detail (run seededDB ops) rid =
          .itemOk "Recipe details by id" [r])
    ∧ (∀ rid : Nat, ∀ u : RecipeCreate, ∀ now : String, ∀ r : Recipe,
        get_by_id (run seededDB ops) rid = some r →
        ∃ r' : Recipe, (update_recipe (run seededDB ops) rid u now).1 =
          .itemOk "Recipe successfully updated!" [r']) := by
  obtain ⟨hnd, hb, hib⟩ := IdInv_run ops seededDB IdInv_seeded
  refine ⟨fun d => rfl, ?_, ?_, ?_⟩
  · intro p now
    rw [create_recipe_fst, create_reread hb p now]
    rfl
  · intro rid r h
    unfold get_recipe_detail
    rw [h]
  · intro rid u now r h
    refine ⟨applyUpdate u now rid r, ?_⟩
    rw [update_recipe_found u now h]
    show Response.itemOk "Recipe successfully updated!"
      (List.find? (fun s => s.id = rid)
        ((run seededDB ops).rows.map (applyUpdate u now rid))).toList = _
    rw [get_by_id_map_applyUpdate]
    have h' : (run seededDB ops).rows.find? (fun s => s.id = rid) = some r := h
    rw [h']
    rfl

/-- Witness for C9: GET by id 1 on the seeded database wraps the seed
row in a one-element sequence. -/
theorem C9_response_shape_witness :
    get_recipe_detail (run seededDB []) 1 =
      .itemOk "Recipe details by id" [seedRow1] :=
  (C9_response_shape []).2.2.1 1 seedRow1 rfl

/-- C2: For every valid create payload, POST succeeds with the message
`Recipe successfully created!` and the newly stored recipe: a fresh
integer id not previously used, `created_at = updated_at` both set to
the current timestamp (whose `strftime` output always has the shape
`YYYY-MM-DD HH:MM:SS`), and the five submitted field values echoed
back unchanged. -/
theorem C2_create_round_trip (ops : List Op) (body : Body) (c : Clock)
    (p : RecipeCreate) (h : parseRecipeCreate body = .ok p) :
    (post_recipes (run seededDB ops) body (get_current_time c)).1 =
        .itemOk "Recipe successfully created!"
          [{ id := (run seededDB ops).seq + 1, title := p.title,
             making_time := p.making_time, serves := p.serves,
             ingredients := p.ingredients, cost := p.cost,
             created_at := get_current_time c,
             updated_at := get_current_time c }]
    ∧ (run seededDB ops).seq + 1 ∉ (run seededDB ops).issued
    ∧ (∀ r ∈ (run seededDB ops).rows, r.id ≠ (run seededDB ops).seq + 1)
    ∧ isTsFormat (get_current_time c) = true := by
  obtain ⟨hnd, hb, hib⟩ := IdInv_run ops seededDB IdInv_seeded
  refine ⟨?_, ?_, ?_, isTsFormat_current c⟩
  · rw [post_recipes_ok h, create_recipe_fst, create_reread hb p (get_current_time c)]
    rfl
  · intro hmem
    have := hib _ hmem
    omega
  · intro r hr
    have := hb r hr
    omega

/-- Witness for C2: a concrete valid payload created on the seeded
database gets id 3 and both timestamps equal to the formatted clock. -/
theorem C2_create_round_trip_witness :
    (post_recipes (run seededDB [])
        [("title", Json.str "T"), ("making_time", Json.str "10 min"),
         ("serves", Json.str "2"), ("ingredients", Json.str "a,b"),
         ("cost", Json.int 5)]
        (get_current_time ⟨2020, 1, 2, 3, 4, 5⟩)).1 =
      .itemOk "Recipe successfully created!"
        [{ id := 3, title := "T", making_time := "10 min", serves := "2",
           ingredients := "a,b", cost := 5,
           created_at := "2020-01-02 03:04:05",
           updated_at := "2020-01-02 03:04:05" }] :=
  (C2_create_round_trip []
    [("title", Json.str "T"), ("making_time", Json.str "10 min"),
     ("serves", Json.str "2"), ("ingredients", Json.str "a,b"),
     ("cost", Json.int 5)]
    ⟨2020, 1, 2, 3, 4, 5⟩ ⟨"T", "10 min", "2", "a,b", 5⟩ rfl).1

/-- C3: PATCH on an existing id replaces the six mutable fields,
setting `updated_at` to the current timestamp, while keeping the row's
id and `created_at` and every other row unchanged; a subsequent GET on
the id shows the new values, the unchanged `created_at`, and an
`updated_at` at least the prior value under a forward-moving clock. -/
theorem C3_update_frame (ops : List Op) (rid : Nat) (u : RecipeCreate)
    (now : String) (r : Recipe)
    (h : get_by_id (run seededDB ops) rid = some r) :
    (update_recipe (run seededDB ops) rid u now).1 =
        .itemOk "Recipe successfully updated!"
          [{ id := rid, title := u.title, making_time := u.making_time,
             serves := u.serves, ingredients := u.ingredients, cost := u.cost,
             created_at := r.created_at, updated_at := now }]
    ∧ get_by_id (update_recipe (run seededDB ops) rid u now).2 rid =
        some { id := rid, title := u.title, making_time := u.making_time,
               serves := u.serves, ingredients := u.ingredients, cost := u.cost,
               created_at := r.created_at, updated_at := now }
    ∧ get_recipe_detail (update_recipe (run seededDB ops) rid u now).2 rid =
        .itemOk "Recipe details by id"
          [{ id := rid, title := u.title, making_time := u.making_time,
             serves := u.serves, ingredients := u.ingredients, cost := u.cost,
             created_at := r.created_at, updated_at := now }]
    ∧ (∀ j : Nat, j ≠ rid →
        get_by_id (update_recipe (run seededDB ops) rid u now).2 j =
          get_by_id (run seededDB ops) j)
    ∧ (tsLe r.updated_at now →
        tsLe r.updated_at
          ({ id := rid, title := u.title, making_time := u.making_time,
             serves := u.serves, ingredients := u.ingredients, cost := u.cost,
             created_at := r.created_at, updated_at := now } : Recipe).updated_at) := by
  have hrid : r.id = rid := get_by_id_some_id h
  have h' : (run seededDB ops).rows.find? (fun s => s.id = rid) = some r := h
  have happ : applyUpdate u now rid r =
      { id := rid, title := u.title, making_time := u.making_time,
        serves := u.serves, ingredients := u.ingredients, cost := u.cost,
        created_at := r.created_at, updated_at := now } := by
    unfold applyUpdate
    rw [if_pos hrid, ← hrid]
  have hget : get_by_id (update_recipe (run seededDB ops) rid u now).2 rid =
      some (applyUpdate u now rid r) := by
    rw [update_recipe_found u now h]
    show List.find? (fun s => s.id = rid)
      ((run seededDB ops).rows.map (applyUpdate u now rid)) = _
    rw [get_by_id_map_applyUpdate, h']
    rfl
  have hget' : get_by_id (update_recipe (run seededDB ops) rid u now).2 rid =
      some { id := rid, title := u.title, making_time := u.making_time,
             serves := u.serves, ingredients := u.ingredients, cost := u.cost,
             created_at := r.created_at, updated_at := now } := by
    rw [hget, happ]
  refine ⟨?_, hget', ?_, ?_, ?_⟩
  · rw [update_recipe_found u now h]
    show Response.itemOk "Recipe successfully updated!"
      (List.find? (fun s => s.id = rid)
        ((run seededDB ops).rows.map (applyUpdate u now rid))).toList = _
    rw [get_by_id_map_applyUpdate, h']
    simp [happ]
  · simp [get_recipe_detail, hget']
  · intro j hj
    rw [update_recipe_found u now h]
    show List.find? (fun s => s.id = j)
        ((run seededDB ops).rows.map (applyUpdate u now rid)) =
      (run seededDB ops).rows.find? (fun s => s.id = j)
    rw [get_by_id_map_applyUpdate]
    cases hf : (run seededDB ops).rows.find? (fun s => s.id = j) with
    | none => rfl
    | some s =>
      have hsid : s.id = j := by simpa using List.find?_some hf
      have hfix : applyUpdate u now rid s = s := by
        unfold applyUpdate
        rw [if_neg (by rw [hsid]; exact hj)]
      rw [Option.map_some', hfix]
  · intro hle
    exact hle

/-- Witness for C3: updating seed row 1 keeps its `created_at` and id
while replacing the payload fields and `updated_at`. -/
theorem C3_update_frame_witness :
    get_by_id (update_recipe (run seededDB []) 1
        { title := "X", making_time := "5分", serves := "1人",
          ingredients := "water", cost := 0 } "2020-01-01 00:00:00").2 1 =
      some { id := 1, title := "X", making_time := "5分", serves := "1人",
             ingredients := "water", cost := 0,
             created_at := "2016-01-10 12:10:12",
             updated_at := "2020-01-01 00:00:00" } :=
  (C3_update_frame [] 1
    { title := "X", making_time := "5分", serves := "1人",
      ingredients := "water", cost := 0 } "2020-01-01 00:00:00"
    seedRow1 rfl).2.1

/-- C5: DELETE on an existing id succeeds with the message-only
envelope and removes exactly that row, leaving all others; afterwards
a GET on the id returns 404, and a second DELETE on it also returns
404 with no further state change. -/
theorem C5_delete_then_get (ops : List Op) (rid : Nat) (r : Recipe)
    (h : get_by_id (run seededDB ops) rid = some r) :
    (delete_recipe (run seededDB ops) rid).1 =
        .msgOk "Recipe successfully removed!"
    ∧ (delete_recipe (run seededDB ops) rid).2.rows =
        (run seededDB ops).rows.filter (fun s => s.id ≠ rid)
    ∧ (delete_recipe (run seededDB ops) rid).2.rows.length + 1 =
        (run seededDB ops).rows.length
    ∧ (∀ j : Nat, j ≠ rid →
        get_by_id (delete_recipe (run seededDB ops) rid).2 j =
          get_by_id (run seededDB ops) j)
    ∧ get_by_id (delete_recipe (run seededDB ops) rid).2 rid = none
    ∧ get_recipe_detail (delete_recipe (run seededDB ops) rid).2 rid =
        .notFound "Recipe not found"
    ∧ delete_recipe (delete_recipe (run seededDB ops) rid).2 rid =
        (.notFound "Recipe not found", (delete_recipe (run seededDB ops) rid).2) := by
  obtain ⟨hnd, hb, hib⟩ := IdInv_run ops seededDB IdInv_seeded
  have h' : (run seededDB ops).rows.find? (fun s => s.id = rid) = some r := h
  have hdel := delete_recipe_found h
  have hnone : get_by_id (delete_recipe (run seededDB ops) rid).2 rid = none := by
    rw [hdel]
    show List.find? (fun s => s.id = rid)
      ((run seededDB ops).rows.filter (fun s => s.id ≠ rid)) = none
    exact get_by_id_filter_self (run seededDB ops) rid
  refine ⟨by rw [hdel], by rw [hdel], ?_, ?_, hnone, ?_, delete_recipe_not_found hnone⟩
  · rw [hdel]
    show ((run seededDB ops).rows.filter (fun s => s.id ≠ rid)).length + 1 =
      (run seededDB ops).rows.length
    exact filter_ne_length hnd h'
  · intro j hj
    rw [hdel]
    show List.find? (fun s => s.id = j)
      ((run seededDB ops).rows.filter (fun s => s.id ≠ rid)) =
      get_by_id (run seededDB ops) j
    exact get_by_id_filter_ne (run seededDB ops) rid j hj
  · simp [get_recipe_detail, hnone]

/-- Witness for C5: deleting seed row 2 makes a subsequent lookup of
id 2 fail. -/
theorem C5_delete_then_get_witness :
    get_by_id (delete_recipe (run seededDB []) 2).2 2 = none :=
  (C5_delete_then_get [] 2 seedRow2 rfl).2.2.2.2.1

/-- C8: Every storage state reachable from the seeded startup state
under a forward-moving clock satisfies: stored ids are pairwise
distinct, every stored row has `created_at ≤ updated_at`, and across
any further request a row present before and after (identified by its
id) keeps its `created_at`. -/
theorem C8_reachable_invariants (ops : List Op)
    (h : clockOk seedTime ops = true) :
    (((run seededDB ops).rows.map Recipe.id).Nodup)
    ∧ (∀ r ∈ (run seededDB ops).rows, tsLe r.created_at r.updated_at)
    ∧ (∀ op : Op, ∀ r ∈ (run seededDB ops).rows,
        ∀ r' ∈ (step (run seededDB ops) op).rows,
        r'.id = r.id → r'.created_at = r.created_at) := by
  have hI := IdInv_run ops seededDB IdInv_seeded
  have hT := TimeInv_run ops seedTime seededDB h TimeInv_seeded
  exact ⟨hI.1, fun r hr => (hT r hr).1,
    fun op r hr r' hr' hid => created_at_stable hI op hr hr' hid⟩

/-- Witness for C8: a trace with one create and one delete keeps the
stored ids pairwise distinct. -/
theorem C8_reachable_invariants_witness :
    ((run seededDB
        [Op.create
           [("title", Json.str "T"), ("making_time", Json.str "10 min"),
            ("serves", Json.str "2"), ("ingredients", Json.str "a,b"),
            ("cost", Json.int 5)] "2020-01-01 00:00:00",
         Op.delete 1]).rows.map Recipe.id).Nodup :=
  (C8_reachable_invariants
    [Op.create
       [("title", Json.str "T"), ("making_time", Json.str "10 min"),
        ("serves", Json.str "2"), ("ingredients", Json.str "a,b"),
        ("cost", Json.int 5)] "2020-01-01 00:00:00",
     Op.delete 1] rfl).1

/-- C10: Request-body fields beyond the five declared ones — in
particular a client-supplied id, `created_at`, or `updated_at` — are
ignored on create and update: validation reads only the five declared
keys, the stored id is storage-generated, and both timestamps are
server-generated. -/
theorem C10_extra_fields_ignored (body extras : Body)
    (hex : ∀ kv ∈ extras, kv.1 ∉ declaredFields) (db : DB) (now : String) :
    parseRecipeCreate (body ++ extras) = parseRecipeCreate body
    ∧ (∀ b1 b2 : Body,
        (∀ k ∈ declaredFields, getField b1 k = getField b2 k) →
        parseRecipeCreate b1 = parseRecipeCreate b2)
    ∧ (∀ p : RecipeCreate, parseRecipeCreate body = .ok p →
        (post_recipes db (body ++ extras) now).2.rows =
          db.rows ++ [newRecipe db p now]
        ∧ (newRecipe db p now).id = db.seq + 1
        ∧ (newRecipe db p now).created_at = now
        ∧ (newRecipe db p now).updated_at = now)
    ∧ (∀ rid : Nat, ∀ p : RecipeCreate, ∀ r : Recipe,
        parseRecipeCreate body = .ok p → get_by_id db rid = some r →
        ∃ r' : Recipe,
          get_by_id (patch_recipes db rid (body ++ extras) now).2 rid = some r'
          ∧ r'.id = r.id ∧ r'.created_at = r.created_at) := by
  have hpar : parseRecipeCreate (body ++ extras) = parseRecipeCreate body :=
    parseRecipeCreate_congr (fun k hk => getField_append_extras hex body hk)
  refine ⟨hpar, fun b1 b2 hk => parseRecipeCreate_congr hk, ?_, ?_⟩
  · intro p hp
    have hok : parseRecipeCreate (body ++ extras) = .ok p := by rw [hpar, hp]
    have hrows : (post_recipes db (body ++ extras) now).2.rows =
        db.rows ++ [newRecipe db p now] := by
      rw [post_recipes_ok hok]
      rfl
    exact ⟨hrows, rfl, rfl, rfl⟩
  · intro rid p r hp hg
    have hok : parseRecipeCreate (body ++ extras) = .ok p := by rw [hpar, hp]
    have h' : db.rows.find? (fun s => s.id = rid) = some r := hg
    refine ⟨applyUpdate p now rid r, ?_, applyUpdate_id p now rid r,
      applyUpdate_created_at p now rid r⟩
    rw [patch_recipes_ok hok, update_recipe_found p now hg]
    show List.find? (fun s => s.id = rid)
      (db.rows.map (applyUpdate p now rid)) = _
    rw [get_by_id_map_applyUpdate, h']
    rfl

/-- Witness for C10: extra `id` and `created_at` keys in the body do
not change the validation result. -/
theorem C10_extra_fields_ignored_witness :
    parseRecipeCreate
        ([("title", Json.str "T"), ("making_time", Json.str "10 min"),
          ("serves", Json.str "2"), ("ingredients", Json.str "a,b"),
          ("cost", Json.int 5)] ++
         [("id", Json.int 999),
          ("created_at", Json.str "1999-01-01 00:00:00")]) =
      parseRecipeCreate
        [("title", Json.str "T"), ("making_time", Json.str "10 min"),
         ("serves", Json.str "2"), ("ingredients", Json.str "a,b"),
         ("cost", Json.int 5)] :=
  (C10_extra_fields_ignored
    [("title", Json.str "T"), ("making_time", Json.str "10 min"),
     ("serves", Json.str "2"), ("ingredients", Json.str "a,b"),
     ("cost", Json.int 5)]
    [("id", Json.int 999), ("created_at", Json.str "1999-01-01 00:00:00")]
    (by decide) seededDB "2020-01-01 00:00:00").1

end RecipeApi
